import Mathlib

/-!
Verification of the background task proxy in
`pupil_src/shared_modules/background_helper.py`.

The worker side (`Task_Proxy._wrapper`) iterates a caller-supplied generator,
checks a shared cancellation flag once per produced item, sends every item on a
pipe, terminates the stream with exactly one sentinel object (a
`StopIteration` instance on normal exhaustion, the raised exception object
otherwise, which is an `EarlyCancellationError` instance when the flag was
observed), and closes the pipe.  The caller side (`Task_Proxy.fetch`) drains
the pipe without blocking, classifying each received object by its runtime
type: `StopIteration` sets `completed`, `EarlyCancellationError` sets
`canceled`, any other `Exception` instance is re-raised, and everything else
is yielded to the caller; an `EOFError` (pipe closed and empty) sets
`canceled`.  `Task_Proxy.cancel` sets the flag, drains once, joins the worker
process and releases the handle.

The embedding below models pipe payloads by their runtime kind (`Msg`), the
drain loop of `fetch` (`drain`, `fetch`), repeated fetch calls against a
message stream (`runSchedule`), the wrapper's send/close event sequence
(`wrapperEvents`), and the caller-side proxy state machine (`Proxy`,
`applyFetch`, `cancel`, `stepRun`).
-/

namespace Pupil

variable {α : Type}

/-- A Python object travelling on the result pipe, classified by the runtime
type tests that `fetch` performs: `plain` is any object that is not an
`Exception` instance, the other three are the `Exception` cases
(`StopIteration`, `EarlyCancellationError`, any other exception carrying an
identifying payload). -/
inductive Msg (α : Type) where
  | plain : α → Msg α
  | stopIter : Msg α
  | earlyCancel : Msg α
  | exc : α → Msg α
deriving DecidableEq, Repr

/-- The two caller-side status booleans of `Task_Proxy`
(`self._completed`, `self._canceled`). -/
structure ProxyState where
  completed : Bool
  canceled : Bool
deriving DecidableEq, Repr

/-- Initial proxy status: both flags are initialized to `False` in
`Task_Proxy.__init__`. -/
def initState : ProxyState := ⟨false, false⟩

/-- Result of one run of the `while self.pipe.poll(0)` drain loop inside
`fetch`, entered with both status flags false: the items yielded, the flag
assignments performed, the exception re-raised (if any), and the messages
left unconsumed on the pipe. -/
structure FetchResult (α : Type) where
  yielded : List α
  completed : Bool
  canceled : Bool
  raised : Option α
  rest : List (Msg α)
deriving DecidableEq, Repr

/-- The drain loop of `Task_Proxy.fetch`, translated clause by clause.
`closed` records whether the sender has closed the pipe, so that once the
buffered messages are exhausted `poll(0)` reports readiness and `recv`
raises `EOFError` (the `except EOFError` branch sets `canceled`); with the
sender still open, `poll(0)` returns false and the loop simply ends.
A `StopIteration` instance sets `completed` and returns; an
`EarlyCancellationError` instance sets `canceled` and returns; any other
`Exception` instance is raised; any other object is yielded and the loop
continues. -/
def drain (closed : Bool) : List (Msg α) → FetchResult α
  | [] => ⟨[], false, closed, none, []⟩
  | m :: ms =>
    match m with
    | .stopIter => ⟨[], true, false, none, ms⟩
    | .earlyCancel => ⟨[], false, true, none, ms⟩
    | .exc e => ⟨[], false, false, some e, ms⟩
    | .plain a =>
      let r := drain closed ms
      ⟨a :: r.yielded, r.completed, r.canceled, r.raised, r.rest⟩

/-- Outcome of one full `fetch` call: the new status flags, the items
yielded, the messages left on the pipe, and the exception raised (if any). -/
structure FetchCall (α : Type) where
  st : ProxyState
  yielded : List α
  rest : List (Msg α)
  raised : Option α
deriving DecidableEq, Repr

/-- One full call of `Task_Proxy.fetch`: if `completed` or `canceled` is
already true it returns immediately, consuming nothing and yielding nothing;
otherwise it runs the drain loop. -/
def fetch (st : ProxyState) (closed : Bool) (msgs : List (Msg α)) : FetchCall α :=
  if st.completed || st.canceled then ⟨st, [], msgs, none⟩
  else
    let r := drain closed msgs
    ⟨⟨r.completed, r.canceled⟩, r.yielded, r.rest, r.raised⟩

/-- Accumulated observations of a sequence of `fetch` calls: final status,
concatenation of all items yielded, the exceptions raised out of `fetch`
(in order), and the messages still on the pipe. -/
structure RunResult (α : Type) where
  state : ProxyState
  yields : List α
  raised : List α
  rem : List (Msg α)
deriving DecidableEq, Repr

/-- Repeated `fetch` calls against a message stream.  At each call some
number `k` of the remaining messages has already arrived and is drained;
the pipe reports end-of-file only when the whole remaining stream is
available (the sender closes the pipe only after its last message). -/
def runSchedule : ProxyState → List (Msg α) → List Nat → RunResult α
  | st, stream, [] => ⟨st, [], [], stream⟩
  | st, stream, k :: ks =>
    let c := fetch st (decide (stream.length ≤ k)) (stream.take k)
    let r := runSchedule c.st (c.rest ++ stream.drop k) ks
    ⟨r.state, c.yielded ++ r.yields, c.raised.toList ++ r.raised, r.rem⟩

/-- How the generator run inside `_wrapper` ends once its items are
exhausted: normal exhaustion of the `for` loop, or an exception raised
during generation, classified by runtime type exactly as `fetch` will
classify the object that `pipe.send(e)` transmits. -/
inductive GenTerm (α : Type) where
  | exhausted : GenTerm α
  | raisedStopIter : GenTerm α
  | raisedEarlyCancel : GenTerm α
  | raisedOther : α → GenTerm α
deriving DecidableEq, Repr

/-- The sentinel object `_wrapper` sends for a given termination: the
`else` branch sends a fresh `StopIteration()` on exhaustion, the `except`
branch sends the raised exception object itself. -/
def termMsg : GenTerm α → Msg α
  | .exhausted => .stopIter
  | .raisedStopIter => .stopIter
  | .raisedEarlyCancel => .earlyCancel
  | .raisedOther e => .exc e

/-- Observable actions of `_wrapper` on the pipe: sending a generator item
(line `pipe.send(datum)`), sending the terminal sentinel (the `except` or
`else` branch), and closing the sender (the `finally` branch). -/
inductive WEvent (α : Type) where
  | sendItem : Msg α → WEvent α
  | sendTerminal : Msg α → WEvent α
  | close : WEvent α
deriving DecidableEq, Repr

/-- The `for datum in generator(...)` loop of `_wrapper`: before sending
item number `i` the shared cancellation flag is read; if it is true an
`EarlyCancellationError` is raised, caught by the `except` clause and sent
as the terminal sentinel; otherwise the item is sent and the loop
continues.  When the items are exhausted the termination decides the
sentinel. -/
def wrapperLoop (flag : Nat → Bool) : Nat → List (Msg α) → GenTerm α → List (WEvent α)
  | _, [], t => [WEvent.sendTerminal (termMsg t)]
  | i, d :: ds, t =>
    if flag i then [WEvent.sendTerminal Msg.earlyCancel]
    else WEvent.sendItem d :: wrapperLoop flag (i + 1) ds t

/-- The full event sequence of one `_wrapper` run: the loop followed by the
unconditional `pipe.close()` of the `finally` clause. -/
def wrapperEvents (flag : Nat → Bool) (items : List (Msg α)) (term : GenTerm α) :
    List (WEvent α) :=
  wrapperLoop flag 0 items term ++ [WEvent.close]

/-- The message a wrapper event places on the pipe, if any. -/
def sentMsg : WEvent α → Option (Msg α)
  | .sendItem m => some m
  | .sendTerminal m => some m
  | .close => none

/-- The message stream a `_wrapper` run produces on the pipe. -/
def wrapperMsgs (flag : Nat → Bool) (items : List (Msg α)) (term : GenTerm α) :
    List (Msg α) :=
  (wrapperEvents flag items term).filterMap sentMsg

/-- The items `_wrapper` actually sends before stopping (a prefix of the
generator's production, cut short when the cancellation flag is observed). -/
def sentItems (flag : Nat → Bool) : Nat → List (Msg α) → List (Msg α)
  | _, [] => []
  | i, d :: ds => if flag i then [] else d :: sentItems flag (i + 1) ds

/-- The terminal sentinel a `_wrapper` run sends. -/
def wrapperTerminal (flag : Nat → Bool) : Nat → List (Msg α) → GenTerm α → Msg α
  | _, [], t => termMsg t
  | i, _ :: ds, t => if flag i then Msg.earlyCancel else wrapperTerminal flag (i + 1) ds t

/-- Recognizes the terminal-sentinel send among wrapper events. -/
def isTerminalEvent : WEvent α → Bool
  | .sendTerminal _ => true
  | _ => false

/-- Recognizes sentinel-typed messages (any `Exception` instance). -/
def isSentinel : Msg α → Bool
  | .plain _ => false
  | _ => true

/-- Caller-side state of a `Task_Proxy` object: the two status booleans,
the shared cancellation flag (`self._should_terminate_flag`), whether the
process handle is still held (`self.process is not None`), the messages
buffered on the pipe, and whether the sender end has been closed. -/
structure Proxy (α : Type) where
  completed : Bool
  canceled : Bool
  shouldTerminate : Bool
  hasProcess : Bool
  pipe : List (Msg α)
  closed : Bool
deriving DecidableEq, Repr

/-- A freshly constructed proxy: both status flags false, cancellation flag
false, process handle held, nothing buffered yet, pipe open. -/
def initProxy : Proxy α := ⟨false, false, false, true, [], false⟩

/-- One `fetch` call as a transformer of the proxy state, also returning
the items yielded and the exception raised (if any). -/
def applyFetch (p : Proxy α) : Proxy α × List α × Option α :=
  if p.completed || p.canceled then (p, [], none)
  else
    let r := drain p.closed p.pipe
    (⟨r.completed, r.canceled, p.shouldTerminate, p.hasProcess, r.rest, p.closed⟩,
      r.yielded, r.raised)

/-- Outcome of a `cancel` call: the new proxy state, the exception that
propagated out of the internal drain (if any), and whether the worker
process was joined on this call. -/
structure CancelResult (α : Type) where
  proxy : Proxy α
  raised : Option α
  joined : Bool
deriving DecidableEq, Repr

/-- `Task_Proxy.cancel`, translated clause by clause: if neither status
flag is set, write true into the shared cancellation flag and run one full
`fetch` drain (an exception raised by that drain propagates and skips the
join); then, if the process handle is still held, join the process and
release the handle.  The post-drain tail is split into `cancelJoin`: an
exception that propagated out of the drain propagates out of `cancel` and
skips the join; otherwise, if the process handle is still held, the
process is joined and the handle released (`self.process = None`). -/
def cancelJoin (q : Proxy α × List α × Option α) : CancelResult α :=
  match q.2.2 with
  | some e => ⟨q.1, some e, false⟩
  | none =>
    if q.1.hasProcess then
      ⟨⟨q.1.completed, q.1.canceled, q.1.shouldTerminate, false, q.1.pipe, q.1.closed⟩,
        none, true⟩
    else ⟨q.1, none, false⟩

def cancel (p : Proxy α) : CancelResult α :=
  if p.completed || p.canceled then
    if p.hasProcess then
      ⟨⟨p.completed, p.canceled, p.shouldTerminate, false, p.pipe, p.closed⟩, none, true⟩
    else ⟨p, none, false⟩
  else
    cancelJoin (applyFetch ⟨p.completed, p.canceled, true, p.hasProcess, p.pipe, p.closed⟩)

/-- Events that can happen to a proxy over its lifetime: a caller `fetch`,
a caller `cancel`, the worker delivering more messages into the pipe
buffer, and the worker closing the sender end. -/
inductive Step (α : Type) where
  | fetchStep : Step α
  | cancelStep : Step α
  | deliver : List (Msg α) → Step α
  | closeCh : Step α
deriving DecidableEq, Repr

/-- The effect of one lifetime event on the proxy state. -/
def stepRun (p : Proxy α) : Step α → Proxy α
  | .fetchStep => (applyFetch p).1
  | .cancelStep => (cancel p).proxy
  | .deliver ms => ⟨p.completed, p.canceled, p.shouldTerminate, p.hasProcess,
      p.pipe ++ ms, p.closed⟩
  | .closeCh => ⟨p.completed, p.canceled, p.shouldTerminate, p.hasProcess, p.pipe, true⟩

/-! ### Basic facts about the drain loop -/

/-- Draining a run of non-exception items yields them all and then behaves
as the drain of the remainder of the pipe. -/
lemma drain_plain_append (closed : Bool) (P : List α) (ms : List (Msg α)) :
    drain closed (P.map Msg.plain ++ ms)
      = ⟨P ++ (drain closed ms).yielded, (drain closed ms).completed,
          (drain closed ms).canceled, (drain closed ms).raised,
          (drain closed ms).rest⟩ := by
  induction P with
  | nil => simp [drain]
  | cons a P ih => simp [drain, ih]

/-- Draining a pipe holding only non-exception items yields them all; with
the sender closed, the end-of-file is then observed and `canceled` is set. -/
lemma drain_plain (closed : Bool) (P : List α) :
    drain closed (P.map Msg.plain) = ⟨P, false, closed, none, []⟩ := by
  have h := drain_plain_append closed P ([] : List (Msg α))
  simpa [drain] using h

/-- Draining up to a `StopIteration` sentinel yields the preceding items,
sets `completed`, and consumes nothing further. -/
lemma drain_stream_stop (closed : Bool) (P : List α) (rest : List (Msg α)) :
    drain closed (P.map Msg.plain ++ Msg.stopIter :: rest)
      = ⟨P, true, false, none, rest⟩ := by
  rw [drain_plain_append]; simp [drain]

/-- Draining up to an `EarlyCancellationError` sentinel yields the preceding
items, sets `canceled`, and consumes nothing further. -/
lemma drain_stream_cancel (closed : Bool) (P : List α) (rest : List (Msg α)) :
    drain closed (P.map Msg.plain ++ Msg.earlyCancel :: rest)
      = ⟨P, false, true, none, rest⟩ := by
  rw [drain_plain_append]; simp [drain]

/-- Draining up to any other exception object yields the preceding items,
raises that object, leaves both status flags unset, and consumes nothing
further. -/
lemma drain_stream_exc (closed : Bool) (P : List α) (e : α) (rest : List (Msg α)) :
    drain closed (P.map Msg.plain ++ Msg.exc e :: rest)
      = ⟨P, false, false, some e, rest⟩ := by
  rw [drain_plain_append]; simp [drain]

/-- A single drain never sets both status flags. -/
lemma drain_flags (closed : Bool) (msgs : List (Msg α)) :
    ((drain closed msgs).completed && (drain closed msgs).canceled) = false := by
  induction msgs with
  | nil => cases closed <;> simp [drain]
  | cons m ms ih => cases m <;> simp [drain, ih]

/-- A `fetch` call in the initial status runs the drain loop and adopts its
flag assignments. -/
lemma fetch_start (closed : Bool) (msgs : List (Msg α)) :
    fetch initState closed msgs
      = ⟨⟨(drain closed msgs).completed, (drain closed msgs).canceled⟩,
          (drain closed msgs).yielded, (drain closed msgs).rest,
          (drain closed msgs).raised⟩ := by
  simp [fetch, initState]

/-- A `fetch` call in a terminal status returns immediately: nothing is
yielded, nothing is raised, nothing is consumed, the status is unchanged. -/
lemma fetch_frozen (st : ProxyState) (h : (st.completed || st.canceled) = true)
    (closed : Bool) (msgs : List (Msg α)) :
    fetch st closed msgs = ⟨st, [], msgs, none⟩ := by
  simp [fetch, h]

/-! ### Facts about schedules of repeated fetch calls -/

/-- From a terminal status, any schedule of fetch calls observes nothing:
no yields, no raises, no consumption, no status change. -/
lemma run_frozen (st : ProxyState) (h : (st.completed || st.canceled) = true)
    (stream : List (Msg α)) (ks : List Nat) :
    runSchedule st stream ks = ⟨st, [], [], stream⟩ := by
  induction ks generalizing stream with
  | nil => rfl
  | cons k ks ih =>
    simp [runSchedule, fetch_frozen st h, ih, List.take_append_drop]

/-- A schedule splits: running `a ++ b` is running `a`, then running `b`
from the reached status on the remaining stream. -/
lemma run_append (st : ProxyState) (stream : List (Msg α)) (a b : List Nat) :
    runSchedule st stream (a ++ b)
      = ⟨(runSchedule (runSchedule st stream a).state (runSchedule st stream a).rem b).state,
          (runSchedule st stream a).yields
            ++ (runSchedule (runSchedule st stream a).state (runSchedule st stream a).rem b).yields,
          (runSchedule st stream a).raised
            ++ (runSchedule (runSchedule st stream a).state (runSchedule st stream a).rem b).raised,
          (runSchedule (runSchedule st stream a).state (runSchedule st stream a).rem b).rem⟩ := by
  induction a generalizing st stream with
  | nil => simp [runSchedule]
  | cons k a ih => simp [runSchedule, ih]

/-- A fetch call given the whole remaining stream behaves as one closed
drain of it. -/
lemma run_cover_call (ms : List (Msg α)) (k : Nat) (h : ms.length ≤ k) :
    runSchedule initState ms [k]
      = ⟨⟨(drain true ms).completed, (drain true ms).canceled⟩,
          (drain true ms).yielded, (drain true ms).raised.toList,
          (drain true ms).rest ++ []⟩ := by
  have h1 : ms.take k = ms := List.take_of_length_le h
  have h2 : ms.drop k = [] := List.drop_eq_nil_of_le h
  have h3 : decide (ms.length ≤ k) = true := decide_eq_true h
  simp [runSchedule, h1, h2, h3, fetch_start]

/-- Fetching from an empty, closed pipe observes end-of-file: the first
call sets `canceled`, everything afterwards is frozen. -/
lemma run_empty_cons (j : Nat) (js : List Nat) :
    runSchedule initState ([] : List (Msg α)) (j :: js)
      = ⟨⟨false, true⟩, [], [], []⟩ := by
  have h := run_frozen (⟨false, true⟩ : ProxyState) rfl ([] : List (Msg α)) js
  simp [runSchedule, fetch_start, drain, h]

/-- Any schedule against an empty, closed pipe yields nothing, raises
nothing, and never sets `completed`. -/
lemma run_empty_shape (ks : List Nat) :
    ∃ b : Bool, runSchedule initState ([] : List (Msg α)) ks
      = ⟨⟨false, b⟩, [], [], []⟩ := by
  cases ks with
  | nil => exact ⟨false, rfl⟩
  | cons j js => exact ⟨true, run_empty_cons j js⟩

/-- Unfolding one fetch call that sees only part of a stream of
non-exception items: the sender is still open, the available items are
yielded, and the rest of the stream stays pending. -/
lemma runSchedule_cons_chunk (T : List α) (tail : List (Msg α)) (k : Nat)
    (ks : List Nat) (hk : ¬ (T.map Msg.plain ++ tail).length ≤ k)
    (hk2 : k ≤ T.length) :
    runSchedule initState (T.map Msg.plain ++ tail) (k :: ks)
      = ⟨(runSchedule initState ((T.drop k).map Msg.plain ++ tail) ks).state,
          T.take k ++ (runSchedule initState ((T.drop k).map Msg.plain ++ tail) ks).yields,
          (runSchedule initState ((T.drop k).map Msg.plain ++ tail) ks).raised,
          (runSchedule initState ((T.drop k).map Msg.plain ++ tail) ks).rem⟩ := by
  have h3 : decide ((T.map Msg.plain ++ tail).length ≤ k) = false := decide_eq_false hk
  have h1 : (T.map Msg.plain ++ tail).take k = (T.take k).map Msg.plain := by
    rw [List.take_append_of_le_length (by simpa using hk2), List.map_take]
  have h2 : (T.map Msg.plain ++ tail).drop k = (T.drop k).map Msg.plain ++ tail := by
    rw [List.drop_append_of_le_length (by simpa using hk2), List.map_drop]
  simp only [runSchedule, h3, h1, h2, fetch_start, drain_plain, List.nil_append]
  simp [initState]

/-- Unfolding one fetch call that sees the whole remaining stream: the
sender has closed the pipe, and the call behaves as one closed drain. -/
lemma runSchedule_cons_cover (ms : List (Msg α)) (k : Nat) (ks : List Nat)
    (h : ms.length ≤ k) :
    runSchedule initState ms (k :: ks)
      = ⟨(runSchedule ⟨(drain true ms).completed, (drain true ms).canceled⟩
            (drain true ms).rest ks).state,
          (drain true ms).yielded
            ++ (runSchedule ⟨(drain true ms).completed, (drain true ms).canceled⟩
                  (drain true ms).rest ks).yields,
          (drain true ms).raised.toList
            ++ (runSchedule ⟨(drain true ms).completed, (drain true ms).canceled⟩
                  (drain true ms).rest ks).raised,
          (runSchedule ⟨(drain true ms).completed, (drain true ms).canceled⟩
            (drain true ms).rest ks).rem⟩ := by
  have h1 : ms.take k = ms := List.take_of_length_le h
  have h2 : ms.drop k = [] := List.drop_eq_nil_of_le h
  have h3 : decide (ms.length ≤ k) = true := decide_eq_true h
  simp only [runSchedule, h1, h2, h3, fetch_start, List.append_nil]

/-- Invariant of repeated fetching against a normally terminating stream
(items followed by one `StopIteration` sentinel): either the sentinel has
been drained — status `completed`, all items yielded, nothing raised,
nothing left — or it has not — status unchanged, the yields so far are a
prefix of the items and the rest of the stream is still pending. -/
lemma runC1_inv (ks : List Nat) (T : List α) :
    runSchedule initState (T.map Msg.plain ++ [Msg.stopIter]) ks
        = ⟨⟨true, false⟩, T, [], []⟩ ∨
    ∃ ys T2, T = ys ++ T2 ∧
      runSchedule initState (T.map Msg.plain ++ [Msg.stopIter]) ks
        = ⟨⟨false, false⟩, ys, [], T2.map Msg.plain ++ [Msg.stopIter]⟩ := by
  induction ks generalizing T with
  | nil => exact Or.inr ⟨[], T, rfl, rfl⟩
  | cons k ks ih =>
    by_cases hk : (T.map Msg.plain ++ [Msg.stopIter]).length ≤ k
    · left
      rw [runSchedule_cons_cover _ _ _ hk]
      simp [drain_stream_stop, run_frozen (⟨true, false⟩ : ProxyState) rfl]
    · have hk2 : k ≤ T.length := by
        simp only [List.length_append, List.length_map, List.length_cons,
          List.length_nil] at hk
        omega
      rw [runSchedule_cons_chunk T [Msg.stopIter] k ks hk hk2]
      rcases ih (T.drop k) with hrec | ⟨ys, T2, hT, hrec⟩
      · left
        rw [hrec]
        simp [List.take_append_drop]
      · right
        refine ⟨T.take k ++ ys, T2, ?_, ?_⟩
        · rw [List.append_assoc, ← hT, List.take_append_drop]
        · rw [hrec]

/-- A schedule whose last call sees the whole stream drains a normally
terminating stream completely: all items yielded in order, `completed`
set, nothing raised, nothing left. -/
lemma runC1_cover (T : List α) (ks : List Nat) (k : Nat) (hk : T.length + 1 ≤ k) :
    runSchedule initState (T.map Msg.plain ++ [Msg.stopIter]) (ks ++ [k])
      = ⟨⟨true, false⟩, T, [], []⟩ := by
  rw [run_append]
  rcases runC1_inv ks T with hrec | ⟨ys, T2, hT, hrec⟩
  · rw [hrec]
    simp [run_frozen (⟨true, false⟩ : ProxyState) rfl]
  · rw [hrec]
    have hlen : (T2.map Msg.plain ++ [Msg.stopIter]).length ≤ k := by
      have hT2 : T2.length ≤ T.length := by rw [hT]; simp
      simp only [List.length_append, List.length_map, List.length_cons, List.length_nil]
      omega
    have hcov := runSchedule_cons_cover (T2.map Msg.plain ++ [Msg.stopIter]) k [] hlen
    simp only [initState] at hcov
    rw [hcov]
    simp [drain_stream_stop, runSchedule, hT]

/-- Invariant of repeated fetching against a failing stream (items followed
by one `Failed` sentinel): either the sentinel has not been drained —
status unchanged, nothing raised, yields a prefix, rest pending — or it has
— the error was raised exactly once, all items were yielded, nothing is
left, and `completed` is false (`canceled` may have been set by a later
call observing the closed pipe). -/
lemma runC2_inv (ks : List Nat) (S : List α) (e : α) :
    (∃ ys S2, S = ys ++ S2 ∧
       runSchedule initState (S.map Msg.plain ++ [Msg.exc e]) ks
         = ⟨⟨false, false⟩, ys, [], S2.map Msg.plain ++ [Msg.exc e]⟩) ∨
    (∃ b : Bool, runSchedule initState (S.map Msg.plain ++ [Msg.exc e]) ks
         = ⟨⟨false, b⟩, S, [e], []⟩) := by
  induction ks generalizing S with
  | nil => exact Or.inl ⟨[], S, rfl, rfl⟩
  | cons k ks ih =>
    by_cases hk : (S.map Msg.plain ++ [Msg.exc e]).length ≤ k
    · right
      obtain ⟨b, hb⟩ := @run_empty_shape α ks
      simp only [initState] at hb
      refine ⟨b, ?_⟩
      rw [runSchedule_cons_cover _ _ _ hk]
      simp [drain_stream_exc, hb]
    · have hk2 : k ≤ S.length := by
        simp only [List.length_append, List.length_map, List.length_cons,
          List.length_nil] at hk
        omega
      rw [runSchedule_cons_chunk S [Msg.exc e] k ks hk hk2]
      rcases ih (S.drop k) with ⟨ys, S2, hS, hrec⟩ | ⟨b, hrec⟩
      · left
        refine ⟨S.take k ++ ys, S2, ?_, ?_⟩
        · rw [List.append_assoc, ← hS, List.take_append_drop]
        · rw [hrec]
      · right
        refine ⟨b, ?_⟩
        rw [hrec]
        simp [List.take_append_drop]

/-- A schedule whose last call sees the whole stream drains a failing
stream completely: all items yielded, the error raised exactly once,
nothing left, `completed` never set. -/
lemma runC2_cover (S : List α) (e : α) (ks : List Nat) (k : Nat)
    (hk : S.length + 1 ≤ k) :
    ∃ b : Bool, runSchedule initState (S.map Msg.plain ++ [Msg.exc e]) (ks ++ [k])
      = ⟨⟨false, b⟩, S, [e], []⟩ := by
  rw [run_append]
  rcases runC2_inv ks S e with ⟨ys, S2, hS, hrec⟩ | ⟨b, hrec⟩
  · have hlen : (S2.map Msg.plain ++ [Msg.exc e]).length ≤ k := by
      have hS2 : S2.length ≤ S.length := by rw [hS]; simp
      simp only [List.length_append, List.length_map, List.length_cons, List.length_nil]
      omega
    have hcov := runSchedule_cons_cover (S2.map Msg.plain ++ [Msg.exc e]) k [] hlen
    simp only [initState] at hcov
    refine ⟨false, ?_⟩
    rw [hrec, hcov]
    simp [drain_stream_exc, runSchedule, hS]
  · rw [hrec]
    cases b with
    | true =>
      refine ⟨true, ?_⟩
      simp [run_frozen (⟨false, true⟩ : ProxyState) rfl]
    | false =>
      obtain ⟨b2, hb2⟩ := @run_empty_shape α [k]
      simp only [initState] at hb2
      refine ⟨b2, ?_⟩
      rw [hb2]
      simp

/-- Once a failing stream has been fully drained, any further fetch calls
yield nothing and raise nothing; they can only set `canceled`. -/
lemma runC2_ext (S : List α) (e : α) (p ks2 : List Nat) (b : Bool)
    (h : runSchedule initState (S.map Msg.plain ++ [Msg.exc e]) p
          = ⟨⟨false, b⟩, S, [e], []⟩) :
    ∃ b2 : Bool, runSchedule initState (S.map Msg.plain ++ [Msg.exc e]) (p ++ ks2)
      = ⟨⟨false, b2⟩, S, [e], []⟩ := by
  rw [run_append, h]
  cases b with
  | true =>
    refine ⟨true, ?_⟩
    simp [run_frozen (⟨false, true⟩ : ProxyState) rfl]
  | false =>
    obtain ⟨b2, hb2⟩ := @run_empty_shape α ks2
    simp only [initState] at hb2
    refine ⟨b2, ?_⟩
    rw [hb2]
    simp
/-! ### Facts about the worker wrapper -/

/-- With the cancellation flag never set, the wrapper loop sends every item
and then the terminal sentinel of the generator's termination. -/
lemma wrapperLoop_constFalse (t : GenTerm α) (items : List (Msg α)) :
    ∀ i : Nat, wrapperLoop (fun _ => false) i items t
      = items.map WEvent.sendItem ++ [WEvent.sendTerminal (termMsg t)] := by
  induction items with
  | nil => intro i; simp [wrapperLoop]
  | cons d ds ih => intro i; simp [wrapperLoop, ih (i + 1)]

/-- With the cancellation flag never set, the pipe carries exactly the
generator's items followed by the terminal sentinel. -/
lemma wrapperMsgs_constFalse (items : List (Msg α)) (t : GenTerm α) :
    wrapperMsgs (fun _ => false) items t = items ++ [termMsg t] := by
  unfold wrapperMsgs wrapperEvents
  rw [wrapperLoop_constFalse]
  induction items with
  | nil => simp [sentMsg]
  | cons d ds ih => simpa [sentMsg] using ih

/-- The wrapper loop is a block of item sends followed by exactly one
terminal-sentinel send. -/
lemma wrapperLoop_shape (flag : Nat → Bool) (t : GenTerm α) (items : List (Msg α)) :
    ∀ i : Nat, wrapperLoop flag i items t
      = (sentItems flag i items).map WEvent.sendItem
          ++ [WEvent.sendTerminal (wrapperTerminal flag i items t)] := by
  induction items with
  | nil => intro i; simp [wrapperLoop, sentItems, wrapperTerminal]
  | cons d ds ih =>
    intro i
    by_cases hf : flag i
    · simp [wrapperLoop, sentItems, wrapperTerminal, hf]
    · simp [wrapperLoop, sentItems, wrapperTerminal, hf, ih (i + 1)]

/-- The terminal sentinel the wrapper sends is always an exception-typed
message, never a plain item. -/
lemma wrapperTerminal_sentinel (flag : Nat → Bool) (t : GenTerm α) (items : List (Msg α)) :
    ∀ i : Nat, isSentinel (wrapperTerminal flag i items t) = true := by
  induction items with
  | nil => intro i; cases t <;> rfl
  | cons d ds ih =>
    intro i
    by_cases hf : flag i
    · simp [wrapperTerminal, hf, isSentinel]
    · simp [wrapperTerminal, hf, ih (i + 1)]

/-- Item sends are not terminal-sentinel sends. -/
lemma countP_terminal_map (L : List (Msg α)) :
    (L.map WEvent.sendItem).countP (fun e => isTerminalEvent e) = 0 := by
  induction L with
  | nil => rfl
  | cons d ds ih => simp [List.countP_cons, isTerminalEvent, ih]

/-! ### Facts about the caller-side proxy state machine -/

/-- A `fetch` call on a proxy already in a terminal status is a complete
no-op. -/
lemma applyFetch_frozen (p : Proxy α) (h : (p.completed || p.canceled) = true) :
    applyFetch p = (p, [], none) := by
  simp [applyFetch, h]

/-- A `fetch` call never leaves both status flags set. -/
lemma applyFetch_not_both (p : Proxy α) (h : (p.completed && p.canceled) = false) :
    ((applyFetch p).1.completed && (applyFetch p).1.canceled) = false := by
  by_cases ht : (p.completed || p.canceled) = true
  · rw [applyFetch_frozen p ht]; exact h
  · simpa [applyFetch, ht] using drain_flags p.closed p.pipe

/-- The post-drain tail of `cancel` does not touch the status flags or the
cancellation flag. -/
lemma cancelJoin_flags (q : Proxy α × List α × Option α) :
    (cancelJoin q).proxy.completed = q.1.completed ∧
    (cancelJoin q).proxy.canceled = q.1.canceled ∧
    (cancelJoin q).proxy.shouldTerminate = q.1.shouldTerminate := by
  rcases q with ⟨p1, ys, rsd⟩
  cases rsd with
  | none =>
    by_cases hp : p1.hasProcess = true
    · simp [cancelJoin, hp]
    · simp only [Bool.not_eq_true] at hp
      simp [cancelJoin, hp]
  | some e => simp [cancelJoin]

/-- A `cancel` call never leaves both status flags set. -/
lemma cancel_not_both (p : Proxy α) (h : (p.completed && p.canceled) = false) :
    ((cancel p).proxy.completed && (cancel p).proxy.canceled) = false := by
  by_cases ht : (p.completed || p.canceled) = true
  · by_cases hp : p.hasProcess = true
    · simpa [cancel, ht, hp] using h
    · simp only [Bool.not_eq_true] at hp
      simpa [cancel, ht, hp] using h
  · have hfl := cancelJoin_flags
      (applyFetch (⟨p.completed, p.canceled, true, p.hasProcess, p.pipe, p.closed⟩ : Proxy α))
    have h2 := applyFetch_not_both
      (⟨p.completed, p.canceled, true, p.hasProcess, p.pipe, p.closed⟩ : Proxy α) (by simpa using h)
    simp only [cancel, if_neg ht]
    rw [hfl.1, hfl.2.1]
    exact h2

/-- No lifetime event can leave both status flags set. -/
lemma stepRun_not_both (p : Proxy α) (s : Step α) (h : (p.completed && p.canceled) = false) :
    ((stepRun p s).completed && (stepRun p s).canceled) = false := by
  cases s with
  | fetchStep => exact applyFetch_not_both p h
  | cancelStep => exact cancel_not_both p h
  | deliver ms => simpa [stepRun] using h
  | closeCh => simpa [stepRun] using h

/-- The mutual-exclusion invariant is preserved along any event sequence. -/
lemma foldl_not_both (steps : List (Step α)) :
    ∀ p : Proxy α, (p.completed && p.canceled) = false →
      ((steps.foldl stepRun p).completed && (steps.foldl stepRun p).canceled) = false := by
  induction steps with
  | nil => intro p h; simpa using h
  | cons s ss ih => intro p h; exact ih _ (stepRun_not_both p s h)

/-- Once a terminal status is reached, no lifetime event changes either
status flag. -/
lemma stepRun_frozen_flags (p : Proxy α) (s : Step α)
    (h : (p.completed || p.canceled) = true) :
    (stepRun p s).completed = p.completed ∧ (stepRun p s).canceled = p.canceled := by
  cases s with
  | fetchStep =>
    show ((applyFetch p).1.completed = p.completed ∧ (applyFetch p).1.canceled = p.canceled)
    rw [applyFetch_frozen p h]
    exact ⟨rfl, rfl⟩
  | cancelStep =>
    by_cases hp : p.hasProcess = true
    · simp [stepRun, cancel, h, hp]
    · simp only [Bool.not_eq_true] at hp
      simp [stepRun, cancel, h, hp]
  | deliver ms => exact ⟨rfl, rfl⟩
  | closeCh => exact ⟨rfl, rfl⟩

/-- A `fetch` call never writes the shared cancellation flag. -/
lemma applyFetch_keepFlag (p : Proxy α) :
    (applyFetch p).1.shouldTerminate = p.shouldTerminate := by
  by_cases ht : (p.completed || p.canceled) = true
  · rw [applyFetch_frozen p ht]
  · simp [applyFetch, ht]

/-- A `cancel` call either leaves the shared cancellation flag alone or
sets it to true. -/
lemma cancel_flagMono (p : Proxy α) :
    (cancel p).proxy.shouldTerminate = p.shouldTerminate ∨
    (cancel p).proxy.shouldTerminate = true := by
  by_cases ht : (p.completed || p.canceled) = true
  · left
    by_cases hp : p.hasProcess = true
    · simp [cancel, ht, hp]
    · simp only [Bool.not_eq_true] at hp
      simp [cancel, ht, hp]
  · right
    have hfl := (cancelJoin_flags
      (applyFetch (⟨p.completed, p.canceled, true, p.hasProcess, p.pipe, p.closed⟩ : Proxy α))).2.2
    have hAF := applyFetch_keepFlag
      (⟨p.completed, p.canceled, true, p.hasProcess, p.pipe, p.closed⟩ : Proxy α)
    simp only [cancel, if_neg ht]
    rw [hfl, hAF]

/-- Any lifetime event either leaves the shared cancellation flag alone or
sets it to true: the only mutation is to true. -/
lemma stepRun_flag (p : Proxy α) (s : Step α) :
    (stepRun p s).shouldTerminate = p.shouldTerminate ∨
    (stepRun p s).shouldTerminate = true := by
  cases s with
  | fetchStep => exact Or.inl (applyFetch_keepFlag p)
  | cancelStep => exact cancel_flagMono p
  | deliver ms => exact Or.inl rfl
  | closeCh => exact Or.inl rfl

/-- Once the shared cancellation flag is true, it stays true. -/
lemma stepRun_flag_mono (p : Proxy α) (s : Step α) (h : p.shouldTerminate = true) :
    (stepRun p s).shouldTerminate = true := by
  rcases stepRun_flag p s with h2 | h2
  · rw [h2, h]
  · exact h2

/-! ### The claims -/

/-- C5: during a fetch drain, observing a `Completed` message (a
`StopIteration` instance) sets `completed = true` and stops draining for
that call, and observing a `Cancelled` message (an
`EarlyCancellationError` instance) sets `canceled = true` and stops
draining; in both cases the fetch call consumes no message beyond the
sentinel (the rest of the pipe is returned untouched). -/
theorem C5_sentinel_stops_drain (closed : Bool) (P : List α) (rest : List (Msg α)) :
    drain closed (P.map Msg.plain ++ Msg.stopIter :: rest)
        = ⟨P, true, false, none, rest⟩ ∧
    drain closed (P.map Msg.plain ++ Msg.earlyCancel :: rest)
        = ⟨P, false, true, none, rest⟩ :=
  ⟨drain_stream_stop closed P rest, drain_stream_cancel closed P rest⟩

/-- C6: if the channel is closed and exhausted before any terminal message
is observed, `fetch` yields whatever items were still buffered, sets
`canceled = true` (implicit cancellation), leaves `completed` false, and
raises no error to the caller. -/
theorem C6_channel_severance (P : List α) :
    drain true (P.map Msg.plain) = ⟨P, false, true, none, []⟩ ∧
    fetch initState true (P.map Msg.plain) = ⟨⟨false, true⟩, P, [], none⟩ := by
  constructor
  · exact drain_plain true P
  · rw [fetch_start, drain_plain]

/-- C10: `fetch` never yields a value received as an exception-typed
message — everything it yields arrived as a plain (non-`Exception`)
object; an exception object arriving on the channel is interpreted by its
runtime type (`StopIteration` completes, `EarlyCancellationError`
cancels, anything else is raised, so an exception-valued generator item
is never delivered as data); and a `StopIteration` or
`EarlyCancellationError` raised inside the generator is forwarded by the
wrapper as that very object and hence reported as normal completion or
cancellation, not as a failure. -/
theorem C10_exception_messages :
    (∀ (closed : Bool) (msgs : List (Msg α)) (a : α),
        a ∈ (drain closed msgs).yielded → Msg.plain a ∈ msgs) ∧
    (∀ (closed : Bool) (P : List α) (e : α) (rest : List (Msg α)),
        drain closed (P.map Msg.plain ++ Msg.exc e :: rest)
          = ⟨P, false, false, some e, rest⟩) ∧
    termMsg (GenTerm.raisedStopIter : GenTerm α) = Msg.stopIter ∧
    termMsg (GenTerm.raisedEarlyCancel : GenTerm α) = Msg.earlyCancel ∧
    (∀ (S : List α) (closed : Bool),
        fetch initState closed
            (wrapperMsgs (fun _ => false) (S.map Msg.plain) GenTerm.raisedStopIter)
          = ⟨⟨true, false⟩, S, [], none⟩) ∧
    (∀ (S : List α) (closed : Bool),
        fetch initState closed
            (wrapperMsgs (fun _ => false) (S.map Msg.plain) GenTerm.raisedEarlyCancel)
          = ⟨⟨false, true⟩, S, [], none⟩) := by
  refine ⟨?_, fun closed P e rest => drain_stream_exc closed P e rest, rfl, rfl, ?_, ?_⟩
  · intro closed msgs
    induction msgs with
    | nil => intro a ha; simp [drain] at ha
    | cons m ms ih =>
      intro a ha
      cases m with
      | plain b =>
        simp only [drain] at ha
        rcases List.mem_cons.mp ha with hab | ha2
        · rw [hab]; exact List.mem_cons_self _ _
        · exact List.mem_cons_of_mem _ (ih a ha2)
      | stopIter => simp [drain] at ha
      | earlyCancel => simp [drain] at ha
      | exc e => simp [drain] at ha
  · intro S closed
    rw [wrapperMsgs_constFalse]
    rw [fetch_start]
    rw [show termMsg (GenTerm.raisedStopIter : GenTerm α) = Msg.stopIter from rfl]
    rw [show (S.map Msg.plain ++ [Msg.stopIter]) = S.map Msg.plain ++ Msg.stopIter :: [] from rfl]
    rw [drain_stream_stop]
  · intro S closed
    rw [wrapperMsgs_constFalse]
    rw [fetch_start]
    rw [show termMsg (GenTerm.raisedEarlyCancel : GenTerm α) = Msg.earlyCancel from rfl]
    rw [show (S.map Msg.plain ++ [Msg.earlyCancel]) = S.map Msg.plain ++ Msg.earlyCancel :: [] from rfl]
    rw [drain_stream_cancel]

/-- C10 witness: a concrete plain item yielded by a drain did arrive as a
plain message. -/
theorem C10_witness :
    (5 : Nat) ∈ (drain false [Msg.plain 5]).yielded ∧
    Msg.plain (5 : Nat) ∈ [Msg.plain 5] :=
  ⟨by decide, C10_exception_messages.1 false [Msg.plain 5] 5 (by decide)⟩

/-- C4: every run of the worker wrapper sends a block of items followed by
exactly one terminal message, the terminal message is exception-typed
(`Completed`, `Cancelled` or `Failed`, never a plain item), it is the last
message sent, and the channel sender is closed as the very last action
before the worker exits — for every flag schedule, item list and
termination. -/
theorem C4_one_terminal_then_close (flag : Nat → Bool) (items : List (Msg α))
    (term : GenTerm α) :
    wrapperEvents flag items term
      = (sentItems flag 0 items).map WEvent.sendItem
          ++ [WEvent.sendTerminal (wrapperTerminal flag 0 items term), WEvent.close] ∧
    isSentinel (wrapperTerminal flag 0 items term) = true ∧
    (wrapperEvents flag items term).countP (fun e => isTerminalEvent e) = 1 ∧
    (wrapperEvents flag items term).getLast? = some WEvent.close := by
  refine ⟨?_, wrapperTerminal_sentinel flag term items 0, ?_, ?_⟩
  · rw [wrapperEvents, wrapperLoop_shape]
    simp
  · rw [wrapperEvents, wrapperLoop_shape]
    simp [List.countP_append, List.countP_cons, countP_terminal_map, isTerminalEvent]
  · rw [wrapperEvents]
    exact List.getLast?_concat _

/-- C3: along every sequence of lifetime events from the initial proxy
state, `completed` and `canceled` are never both true; once either is
true no event changes either flag (at most one terminal state is ever
reached); and a `fetch` call in a terminal state returns immediately,
yielding nothing, raising nothing, consuming nothing. -/
theorem C3_mutual_exclusion :
    (∀ steps : List (Step α),
        ((steps.foldl stepRun initProxy).completed
          && (steps.foldl stepRun initProxy).canceled) = false) ∧
    (∀ (p : Proxy α) (s : Step α), (p.completed || p.canceled) = true →
        (stepRun p s).completed = p.completed ∧ (stepRun p s).canceled = p.canceled) ∧
    (∀ p : Proxy α, (p.completed || p.canceled) = true → applyFetch p = (p, [], none)) :=
  ⟨fun steps => foldl_not_both steps initProxy rfl,
    stepRun_frozen_flags, applyFetch_frozen⟩

/-- C3 witness: a concrete event sequence reaching `completed`, and a
concrete terminal proxy on which `fetch` is a no-op. -/
theorem C3_witness :
    ((([Step.deliver [Msg.stopIter], Step.fetchStep] : List (Step Nat)).foldl stepRun
        initProxy).completed
      && (([Step.deliver [Msg.stopIter], Step.fetchStep] : List (Step Nat)).foldl stepRun
        initProxy).canceled) = false ∧
    applyFetch (⟨true, false, false, true, [], false⟩ : Proxy Nat)
      = (⟨true, false, false, true, [], false⟩, [], none) :=
  ⟨C3_mutual_exclusion.1 _, C3_mutual_exclusion.2.2 _ (by decide)⟩

/-- C9: the shared cancellation flag starts false, the only mutation any
lifetime event performs on it is setting it to true, and once true it
stays true forever. -/
theorem C9_flag_monotone :
    (initProxy : Proxy α).shouldTerminate = false ∧
    (∀ (p : Proxy α) (s : Step α),
        (stepRun p s).shouldTerminate = p.shouldTerminate ∨
        (stepRun p s).shouldTerminate = true) ∧
    (∀ (p : Proxy α) (s : Step α), p.shouldTerminate = true →
        (stepRun p s).shouldTerminate = true) :=
  ⟨rfl, stepRun_flag, stepRun_flag_mono⟩

/-- C9 witness: on a concrete proxy with the flag already true, a fetch
event keeps it true. -/
theorem C9_witness :
    (⟨false, false, true, true, [], false⟩ : Proxy Nat).shouldTerminate = true ∧
    (stepRun (⟨false, false, true, true, [], false⟩ : Proxy Nat)
        Step.fetchStep).shouldTerminate = true :=
  ⟨rfl, C9_flag_monotone.2.2 _ Step.fetchStep rfl⟩

/-- C7 counterexample: on a proxy that is already `completed` and still
holds the process handle, `cancel` is not a no-op — it changes the state
(releases the handle) and performs a join, contradicting the claim that
cancel after a terminal state has no observable effect. -/
theorem C7_counterexample :
    (cancel (⟨true, false, false, true, [], false⟩ : Proxy Nat)).proxy
        ≠ (⟨true, false, false, true, [], false⟩ : Proxy Nat) ∧
    (cancel (⟨true, false, false, true, [], false⟩ : Proxy Nat)).joined = true := by
  decide

/-- C7 amended: if `completed` or `canceled` is already true, `cancel`
skips the cancellation signalling and channel draining — the status
flags, the shared cancellation flag and the pipe are untouched and no
error is raised — but it still joins the worker process and releases the
handle on the first call that finds the handle present; once the handle
is released, every further `cancel` call is a complete no-op (no error,
no state change, no join), so the process is never joined twice. -/
theorem C7_amended_terminal_cancel (p : Proxy α)
    (h : p.completed = true ∨ p.canceled = true) :
    (cancel p).raised = none ∧
    (cancel p).proxy
      = ⟨p.completed, p.canceled, p.shouldTerminate, false, p.pipe, p.closed⟩ ∧
    (cancel p).joined = p.hasProcess ∧
    cancel (cancel p).proxy
      = ⟨⟨p.completed, p.canceled, p.shouldTerminate, false, p.pipe, p.closed⟩,
          none, false⟩ := by
  have ht : (p.completed || p.canceled) = true := by rcases h with h | h <;> simp [h]
  obtain ⟨pc, pn, pf, ph, pp, pcl⟩ := p
  simp only at ht
  cases ph with
  | true => simp [cancel, ht]
  | false => simp [cancel, ht]

/-- C7 witness: the amended behavior on a concrete completed proxy. -/
theorem C7_amended_witness :
    ((⟨true, false, false, true, [], false⟩ : Proxy Nat).completed = true ∨
      (⟨true, false, false, true, [], false⟩ : Proxy Nat).canceled = true) ∧
    (cancel (⟨true, false, false, true, [], false⟩ : Proxy Nat)).raised = none :=
  ⟨Or.inl rfl,
    (C7_amended_terminal_cancel (⟨true, false, false, true, [], false⟩ : Proxy Nat)
      (Or.inl rfl)).1⟩

/-- C1: for a generator that terminates normally after producing the
finite item sequence `T` (no exception-typed items, flag never set), any
schedule of repeated fetch calls whose last call sees the whole stream
yields exactly `T` in order, ends with `completed = true` and
`canceled = false`, and raises nothing; moreover, along any schedule,
whenever `completed` is true all of `T` has already been yielded (never
before the last item), and `completed` never reverts once true. -/
theorem C1_normal_completion (T : List α) (ks : List Nat) (k : Nat)
    (hk : T.length + 1 ≤ k) :
    runSchedule initState
        (wrapperMsgs (fun _ => false) (T.map Msg.plain) GenTerm.exhausted) (ks ++ [k])
      = ⟨⟨true, false⟩, T, [], []⟩ ∧
    (∀ p : List Nat,
        (runSchedule initState
            (wrapperMsgs (fun _ => false) (T.map Msg.plain) GenTerm.exhausted)
            p).state.completed = true →
        (runSchedule initState
            (wrapperMsgs (fun _ => false) (T.map Msg.plain) GenTerm.exhausted)
            p).yields = T) ∧
    (∀ p q : List Nat,
        (runSchedule initState
            (wrapperMsgs (fun _ => false) (T.map Msg.plain) GenTerm.exhausted)
            p).state.completed = true →
        (runSchedule initState
            (wrapperMsgs (fun _ => false) (T.map Msg.plain) GenTerm.exhausted)
            (p ++ q)).state.completed = true) := by
  have hs : wrapperMsgs (fun _ => false) (T.map Msg.plain) (GenTerm.exhausted : GenTerm α)
      = T.map Msg.plain ++ [Msg.stopIter] := by
    rw [wrapperMsgs_constFalse]; rfl
  rw [hs]
  refine ⟨runC1_cover T ks k hk, ?_, ?_⟩
  · intro p hcomp
    rcases runC1_inv p T with hrec | ⟨ys, T2, hT, hrec⟩
    · rw [hrec]
    · rw [hrec] at hcomp
      simp at hcomp
  · intro p q hcomp
    rcases runC1_inv p T with hrec | ⟨ys, T2, hT, hrec⟩
    · rw [run_append, hrec]
      simp [run_frozen (⟨true, false⟩ : ProxyState) rfl]
    · rw [hrec] at hcomp
      simp at hcomp

/-- C1 witness: two fetch calls against a two-item generator. -/
theorem C1_witness :
    ([1, 2] : List Nat).length + 1 ≤ 3 ∧
    runSchedule initState
        (wrapperMsgs (fun _ => false) (([1, 2] : List Nat).map Msg.plain) GenTerm.exhausted)
        ([1] ++ [3])
      = ⟨⟨true, false⟩, [1, 2], [], []⟩ :=
  ⟨by decide, (C1_normal_completion [1, 2] [1] 3 (by decide)).1⟩

/-- C2: for a generator that raises an error after producing items `S`,
the error is raised out of `fetch` exactly once over the whole run — on
the call that drains the `Failed` message, after which no further fetch
call ever raises it again — and it is never silently swallowed: along any
schedule, either the `Failed` message is still pending and nothing has
been raised, or it has been drained and the error was raised exactly
once. -/
theorem C2_error_propagation (S : List α) (e : α) (ks : List Nat) (k : Nat)
    (hk : S.length + 1 ≤ k) :
    (runSchedule initState
        (wrapperMsgs (fun _ => false) (S.map Msg.plain) (GenTerm.raisedOther e))
        (ks ++ [k])).raised = [e] ∧
    (runSchedule initState
        (wrapperMsgs (fun _ => false) (S.map Msg.plain) (GenTerm.raisedOther e))
        (ks ++ [k])).yields = S ∧
    (∀ ks2 : List Nat,
        (runSchedule initState
            (wrapperMsgs (fun _ => false) (S.map Msg.plain) (GenTerm.raisedOther e))
            ((ks ++ [k]) ++ ks2)).raised = [e]) ∧
    (∀ p : List Nat,
        ((runSchedule initState
              (wrapperMsgs (fun _ => false) (S.map Msg.plain) (GenTerm.raisedOther e))
              p).raised = [] ∧
          ∃ S2 : List α, (runSchedule initState
              (wrapperMsgs (fun _ => false) (S.map Msg.plain) (GenTerm.raisedOther e))
              p).rem = S2.map Msg.plain ++ [Msg.exc e]) ∨
        ((runSchedule initState
              (wrapperMsgs (fun _ => false) (S.map Msg.plain) (GenTerm.raisedOther e))
              p).raised = [e] ∧
          (runSchedule initState
              (wrapperMsgs (fun _ => false) (S.map Msg.plain) (GenTerm.raisedOther e))
              p).rem = [])) := by
  have hs : wrapperMsgs (fun _ => false) (S.map Msg.plain) (GenTerm.raisedOther e)
      = S.map Msg.plain ++ [Msg.exc e] := by
    rw [wrapperMsgs_constFalse]; rfl
  rw [hs]
  obtain ⟨b, hb⟩ := runC2_cover S e ks k hk
  refine ⟨by rw [hb], by rw [hb], ?_, ?_⟩
  · intro ks2
    obtain ⟨b2, hb2⟩ := runC2_ext S e (ks ++ [k]) ks2 b hb
    rw [hb2]
  · intro p
    rcases runC2_inv p S e with ⟨ys, S2, hS, hrec⟩ | ⟨b2, hrec⟩
    · left
      rw [hrec]
      exact ⟨rfl, ⟨S2, rfl⟩⟩
    · right
      rw [hrec]
      exact ⟨rfl, rfl⟩

/-- C2 witness: a one-item generator that then fails. -/
theorem C2_witness :
    ([7] : List Nat).length + 1 ≤ 2 ∧
    (runSchedule initState
        (wrapperMsgs (fun _ => false) (([7] : List Nat).map Msg.plain)
          (GenTerm.raisedOther 9))
        ([] ++ [2])).raised = [9] :=
  ⟨by decide, (C2_error_propagation [7] 9 [] 2 (by decide)).1⟩

/-- C8 counterexample: after the fetch call that drained the `Failed`
message and raised the error (leaving both status flags false), the next
fetch call is not a state-free no-op: it observes the closed channel and
flips `canceled` from false to true. -/
theorem C8_counterexample :
    (runSchedule initState
        (wrapperMsgs (fun _ => false) ([] : List (Msg Nat)) (GenTerm.raisedOther 0))
        [1]).raised = [0] ∧
    (runSchedule initState
        (wrapperMsgs (fun _ => false) ([] : List (Msg Nat)) (GenTerm.raisedOther 0))
        [1]).state = ⟨false, false⟩ ∧
    (runSchedule initState
        (wrapperMsgs (fun _ => false) ([] : List (Msg Nat)) (GenTerm.raisedOther 0))
        [1, 1]).state = ⟨false, true⟩ := by
  decide

/-- C8 amended: for a generator that raises an error after producing `S`,
fetch yields exactly `S` in order and raises the error on the call that
drains the `Failed` message; every subsequent fetch call yields nothing
and raises nothing, but the first subsequent call observes the closed
channel and sets `canceled = true`, after which every further call is a
complete no-op. -/
theorem C8_failure_then_eof (S : List α) (e : α) (ks : List Nat) (k : Nat)
    (hk : S.length + 1 ≤ k) :
    (runSchedule initState
        (wrapperMsgs (fun _ => false) (S.map Msg.plain) (GenTerm.raisedOther e))
        (ks ++ [k])).yields = S ∧
    (runSchedule initState
        (wrapperMsgs (fun _ => false) (S.map Msg.plain) (GenTerm.raisedOther e))
        (ks ++ [k])).raised = [e] ∧
    (runSchedule initState
        (wrapperMsgs (fun _ => false) (S.map Msg.plain) (GenTerm.raisedOther e))
        (ks ++ [k])).rem = [] ∧
    (runSchedule initState
        (wrapperMsgs (fun _ => false) (S.map Msg.plain) (GenTerm.raisedOther e))
        (ks ++ [k])).state.completed = false ∧
    (∀ ks2 : List Nat, ks2 ≠ [] →
        runSchedule initState
            (wrapperMsgs (fun _ => false) (S.map Msg.plain) (GenTerm.raisedOther e))
            ((ks ++ [k]) ++ ks2)
          = ⟨⟨false, true⟩, S, [e], []⟩) := by
  have hs : wrapperMsgs (fun _ => false) (S.map Msg.plain) (GenTerm.raisedOther e)
      = S.map Msg.plain ++ [Msg.exc e] := by
    rw [wrapperMsgs_constFalse]; rfl
  rw [hs]
  obtain ⟨b, hb⟩ := runC2_cover S e ks k hk
  refine ⟨by rw [hb], by rw [hb], by rw [hb], by rw [hb], ?_⟩
  intro ks2 hne
  rw [run_append, hb]
  cases b with
  | true => simp [run_frozen (⟨false, true⟩ : ProxyState) rfl]
  | false =>
    cases ks2 with
    | nil => exact absurd rfl hne
    | cons j js =>
      have hec := @run_empty_cons α j js
      simp only [initState] at hec
      simp [hec]

/-- C8 witness: the amended behavior on a one-item failing generator. -/
theorem C8_witness :
    ([5] : List Nat).length + 1 ≤ 9 ∧
    (runSchedule initState
        (wrapperMsgs (fun _ => false) (([5] : List Nat).map Msg.plain)
          (GenTerm.raisedOther 3))
        ([] ++ [9])).yields = [5] :=
  ⟨by decide, (C8_failure_then_eof [5] 3 [] 9 (by decide)).1⟩

end Pupil
